import Mathlib

/-!
Shallow embedding of `mlx/backend/metal/primitives.cpp` (mlx Metal backend
primitive dispatch).  Each `eval_gpu` method is modelled as a pure function
from the metadata of its input/output arrays to the ordered list of
observable effects it performs on the allocator and the command encoder
(buffer allocations, argument bindings, kernel dispatches, shared-buffer
view creations), together with the error it raises, if any.  External
collaborators (`kernel->maxTotalThreadsPerThreadgroup()`, `prepare_slice`,
`prepare_reshape`) enter as parameters.
-/

namespace MlxMetal

/-- Element dtypes of the mlx core, as matched by `Arange::eval_gpu`. -/
inductive Dtype where
  | bool_ | uint8 | uint16 | uint32 | uint64
  | int8 | int16 | int32 | int64
  | float16 | float32 | bfloat16 | complex64
deriving DecidableEq

/-- Byte size of one element of each dtype (`itemsize()`). -/
def Dtype.itemsize : Dtype → Nat
  | .bool_ => 1 | .uint8 => 1 | .int8 => 1
  | .uint16 => 2 | .int16 => 2 | .float16 => 2 | .bfloat16 => 2
  | .uint32 => 4 | .int32 => 4 | .float32 => 4
  | .uint64 => 8 | .int64 => 8 | .complex64 => 8

/-- The contiguity flags carried by an mlx array (`array::Flags`). -/
structure Flags where
  contiguous : Bool
  row_contiguous : Bool
  col_contiguous : Bool
deriving DecidableEq

/-- Metadata of an mlx `array`: logical shape, element strides, dtype, the
number of elements of its backing data (`data_size()`), and contiguity
flags.  The logical element count `size()` is the product of the shape. -/
structure ArrayMeta where
  shape : List Nat
  strides : List Nat
  dtype : Dtype
  dataSize : Nat
  flags : Flags
deriving DecidableEq

instance : Inhabited ArrayMeta :=
  ⟨⟨[], [], Dtype.float32, 0, ⟨false, false, false⟩⟩⟩

/-- `array::size()`: the product of the shape. -/
def ArrayMeta.size (a : ArrayMeta) : Nat := a.shape.prod

/-- `array::itemsize()`. -/
def ArrayMeta.itemsize (a : ArrayMeta) : Nat := a.dtype.itemsize

/-- `array::nbytes() = size() * itemsize()`. -/
def ArrayMeta.nbytes (a : ArrayMeta) : Nat := a.size * a.itemsize

/-- `array::ndim()`. -/
def ArrayMeta.ndim (a : ArrayMeta) : Nat := a.shape.length

/-- The four copy strategies of the Metal copy engine (`CopyType`). -/
inductive CopyType where
  | Scalar | Vector | General | GeneralGeneral
deriving DecidableEq

/-- A Metal dispatch extent (`MTL::Size`). -/
structure MTLSize where
  x : Nat
  y : Nat
  z : Nat
deriving DecidableEq

/-- One observable step of an `eval_gpu` body: allocator calls, data
binding, encoder argument binding, kernel dispatch, copy-engine calls and
shared-buffer view construction. -/
inductive Effect where
  | alloc (nbytes : Nat)
  | setDataNull
  | aliasShared
  | setPipeline (base : String) (dt : Option Dtype)
  | setScalar (slot : Nat) (bytes : Nat)
  | setBytesNat (slot : Nat) (value : Nat)
  | setBytesNatList (slot : Nat) (values : List Nat)
  | setInputArray (slot : Nat)
  | setOutputArray (slot : Nat)
  | dispatchThreads (grid : MTLSize) (group : MTLSize)
  | copyGpu (ctype : CopyType)
  | copyGpuInplace (ctype : CopyType)
  | sharedView (offset : Nat) (strides : List Nat) (flags : Flags) (size : Nat)
  | startConcurrent
  | unaryOp (name : String)
  | helperCall (name : String)
deriving DecidableEq

/-- True on buffer-allocation effects (`set_data(allocator::malloc_or_wait(..))`). -/
def isAlloc : Effect → Bool
  | .alloc _ => true
  | _ => false

/-- True on kernel-dispatch effects (`dispatchThreads`). -/
def isDispatch : Effect → Bool
  | .dispatchThreads _ _ => true
  | _ => false

/-- True on copy-engine invocations. -/
def isCopy : Effect → Bool
  | .copyGpu _ => true
  | .copyGpuInplace _ => true
  | _ => false

/-- A trace performs no buffer allocation. -/
def allocFree (t : List Effect) : Bool := t.all fun e => !isAlloc e

/-- A trace performs no kernel dispatch. -/
def dispatchFree (t : List Effect) : Bool := t.all fun e => !isDispatch e

/-- A trace performs no copy-engine call. -/
def copyFree (t : List Effect) : Bool := t.all fun e => !isCopy e

/-- `Arange::eval_gpu`: allocate `out.nbytes()`; return if the output is
empty; otherwise set the pipeline, bind `start`/`step` as the first two
scalar arguments (unsupported for `bool` and `complex64`, which throw),
bind the output at slot 2 and dispatch one thread per output element. -/
def Arange.eval_gpu (out : ArrayMeta) (maxTG : Nat) : List Effect × Option String :=
  let alloc := Effect.alloc out.nbytes
  if out.size = 0 then ([alloc], none)
  else
    let nthreads := out.size
    let grid_dims := MTLSize.mk nthreads 1 1
    let group_dims := MTLSize.mk (min nthreads maxTG) 1 1
    let pre := [alloc, Effect.setPipeline "arange" (some out.dtype)]
    match out.dtype with
    | .bool_ => (pre, some "[Arange::eval_gpu] Does not support bool")
    | .complex64 => (pre, some "[Arange::eval_gpu] Does not support complex64")
    | dt =>
        (pre ++ [Effect.setScalar 0 dt.itemsize, Effect.setScalar 1 dt.itemsize,
                 Effect.setOutputArray 2,
                 Effect.dispatchThreads grid_dims group_dims],
         none)

/-- The two reduction kinds of `ArgReduce`. -/
inductive ReduceType where
  | ArgMin | ArgMax
deriving DecidableEq

/-- The thread-group sizing computed inside `ArgReduce::eval_gpu`:
`min(ceil(axis_size/n_reads), maxTotalThreadsPerThreadgroup)` with
`n_reads = 4`, then rounded up to the closest multiple of
`simd_size = 32`. -/
def ArgReduce.threadGroupSize (axis_size maxTG : Nat) : Nat :=
  let simd_size := 32
  let n_reads := 4
  (min ((axis_size + n_reads - 1) / n_reads) maxTG + simd_size - 1) /
    simd_size * simd_size

/-- `ArgReduce::eval_gpu`: allocate the output, drop the reduced axis from
the shape/stride vectors, size a thread group for `n_reads = 4` elements
per thread rounded up to the SIMD width 32 after capping at the kernel
maximum, and dispatch `out.size()` such groups as a flat grid. -/
def ArgReduce.eval_gpu (inM out : ArrayMeta) (axis : Nat) (rt : ReduceType)
    (maxTG : Nat) : List Effect :=
  let op_name := match rt with
    | .ArgMin => "argmin_"
    | .ArgMax => "argmax_"
  let in_strides := inM.strides
  let shape := inM.shape
  let out_strides0 := out.strides
  let axis_stride := in_strides.getD axis 0
  let axis_size := shape.getD axis 0
  let out_strides :=
    if out_strides0.length = in_strides.length then out_strides0.eraseIdx axis
    else out_strides0
  let in_strides1 := in_strides.eraseIdx axis
  let shape1 := shape.eraseIdx axis
  let ndim := shape1.length
  let thread_group_size := ArgReduce.threadGroupSize axis_size maxTG
  let n_threads := out.size * thread_group_size
  let grid_dims := MTLSize.mk n_threads 1 1
  let group_dims := MTLSize.mk thread_group_size 1 1
  [Effect.alloc out.nbytes,
   Effect.setPipeline op_name (some inM.dtype),
   Effect.setInputArray 0, Effect.setOutputArray 1] ++
  (if ndim = 0 then
    [Effect.setBytesNat 2 0, Effect.setBytesNat 3 0, Effect.setBytesNat 4 0]
   else
    [Effect.setBytesNatList 2 shape1, Effect.setBytesNatList 3 in_strides1,
     Effect.setBytesNatList 4 out_strides]) ++
  [Effect.setBytesNat 5 ndim, Effect.setBytesNat 6 axis_stride,
   Effect.setBytesNat 7 axis_size,
   Effect.dispatchThreads grid_dims group_dims]

/-- `RandomBits::eval_gpu`: with `num_keys = keys.size()/2` and
`bytes_per_key = itemsize * (out.size()/num_keys)`, allocate, return if
empty, then split the per-key 4-byte blocks into two halves and dispatch a
`(num_keys, half_size + odd, 1)` grid, choosing the contiguous or strided
key kernel from the keys' row-contiguity. -/
def RandomBits.eval_gpu (keys out : ArrayMeta) (maxTG : Nat) : List Effect :=
  let num_keys := keys.size / 2
  let elems_per_key := out.size / num_keys
  let bytes_per_key := out.itemsize * elems_per_key
  let alloc := Effect.alloc out.nbytes
  if out.size = 0 then [alloc]
  else
    let out_per_key := (bytes_per_key + 4 - 1) / 4
    let half_size := out_per_key / 2
    let odd : Bool := out_per_key % 2 == 1
    let kname := if keys.flags.row_contiguous then "rbitsc" else "rbits"
    let grid_dims := MTLSize.mk num_keys (half_size + (if odd then 1 else 0)) 1
    let group_dims := MTLSize.mk maxTG 1 1
    [alloc, Effect.setPipeline kname none,
     Effect.setInputArray 0, Effect.setOutputArray 1,
     Effect.setBytesNat 2 (if odd then 1 else 0),
     Effect.setBytesNat 3 bytes_per_key] ++
    (if !keys.flags.row_contiguous then
      [Effect.setBytesNat 4 keys.ndim,
       Effect.setBytesNatList 5 keys.shape,
       Effect.setBytesNatList 6 keys.strides]
     else []) ++
    [Effect.dispatchThreads grid_dims group_dims]

/-- The `CopyType` chosen by `Full::eval_gpu`: `Scalar` when the source's
backing data holds a single element (`data_size() == 1`), else `Vector`
when the source is contiguous, else `General`. -/
def Full.copyType (inM : ArrayMeta) : CopyType :=
  if inM.dataSize = 1 then CopyType.Scalar
  else if inM.flags.contiguous then CopyType.Vector
  else CopyType.General

/-- `Full::eval_gpu`: select the copy type and invoke the copy engine. -/
def Full.eval_gpu (inM : ArrayMeta) : List Effect :=
  [Effect.copyGpu (Full.copyType inM)]

/-- The selection rule exactly as the specification words it: `Scalar`
when the source has exactly one LOGICAL element (`size() == 1`), else
`Vector` when contiguous, else `General`.  Stated for comparison with the
source rule `Full.copyType`, which tests `data_size() == 1` instead. -/
def Full.copyTypeLogical (inM : ArrayMeta) : CopyType :=
  if inM.size = 1 then CopyType.Scalar
  else if inM.flags.contiguous then CopyType.Vector
  else CopyType.General

/-- `Conjugate::eval_gpu`: a `conj` unary kernel on `complex64` output,
an `invalid_argument` error on every other dtype. -/
def Conjugate.eval_gpu (_inputs : List ArrayMeta) (out : ArrayMeta) :
    List Effect × Option String :=
  if out.dtype = Dtype.complex64 then ([Effect.unaryOp "conj"], none)
  else ([], some "[conjugate] conjugate must be called on complex input.")

/-- Resolution of a possibly negative axis index,
`ax = axes_[i] < 0 ? out.ndim() + axes_[i] : axes_[i]` in `Pad::eval_gpu`. -/
def resolveAxis (ndim : Nat) (a : Int) : Nat :=
  if a < 0 then (Int.ofNat ndim + a).toNat else a.toNat

/-- The interior offset computed by the loop in `Pad::eval_gpu`:
`data_offset += out.strides()[ax] * low_pad_size_[i]` over all axes. -/
def Pad.dataOffset (out : ArrayMeta) (axes : List Int) (low_pad : List Nat) : Nat :=
  (List.range axes.length).foldl
    (fun acc i =>
      acc + out.strides.getD (resolveAxis out.ndim (axes.getD i 0)) 0 *
        low_pad.getD i 0)
    0

/-- `Pad::eval_gpu`: fill the output with the scalar pad value, build a
shared-buffer view of the interior at `Pad.dataOffset`, and copy the input
into it with a `GeneralGeneral` copy. -/
def Pad.eval_gpu (inM _val out : ArrayMeta) (axes : List Int)
    (low_pad : List Nat) : List Effect :=
  [Effect.copyGpu CopyType.Scalar,
   Effect.sharedView (Pad.dataOffset out axes low_pad) out.strides out.flags
     inM.size,
   Effect.copyGpuInplace CopyType.GeneralGeneral]

/-- `Slice::eval_gpu`: an empty output binds a null buffer and returns;
otherwise either allocate and run a `General` copy (when `prepare_slice`
demands one) or share the input buffer (`shared_buffer_slice`).  The
`prepare_slice` results are parameters, the helper being outside this
translation unit. -/
def Slice.eval_gpu (_inM out : ArrayMeta) (copy_needed : Bool)
    (_data_offset : Nat) (_inp_strides : List Nat) : List Effect :=
  if out.size = 0 then [Effect.setDataNull]
  else if copy_needed then
    [Effect.alloc out.nbytes, Effect.copyGpuInplace CopyType.General]
  else [Effect.helperCall "shared_buffer_slice"]

/-- `SliceUpdate::eval_gpu`: an empty output binds a null buffer; an empty
update aliases the base input's buffer into the output; otherwise the base
is materialized into the output (`Scalar`/`Vector`/`General` from its
contiguity) and the update is written into the sub-region with a
`GeneralGeneral` copy. -/
def SliceUpdate.eval_gpu (inM upd out : ArrayMeta) : List Effect :=
  if out.size = 0 then [Effect.setDataNull]
  else if upd.size = 0 then [Effect.aliasShared]
  else
    let ctype :=
      if inM.flags.contiguous && inM.size == inM.dataSize then CopyType.Vector
      else CopyType.General
    [Effect.copyGpu (if inM.dataSize = 1 then CopyType.Scalar else ctype),
     Effect.copyGpuInplace CopyType.GeneralGeneral]

/-- The flag clearing performed by `Concatenate::eval_gpu` on the flags it
hands to each output slice. -/
def Concatenate.clearFlags (f : Flags) : Flags :=
  { f with row_contiguous := false, col_contiguous := false,
           contiguous := false }

/-- Effects of a loop `for i in [0, n)` that emits `f i` at step `i`. -/
def iterEffects (f : Nat → List Effect) : Nat → List Effect
  | 0 => []
  | n + 1 => iterEffects f n ++ f n

/-- `Concatenate::eval_gpu`: running (inclusive-scan) offsets of the
inputs' extents along the concatenation axis, allocation of the output, a
concurrent encoder region, and for each input a shared-buffer view of the
output at `strides[axis] * sizes[i]` with cleared contiguity flags,
populated by a `GeneralGeneral` copy. -/
def Concatenate.eval_gpu (inputs : List ArrayMeta) (out : ArrayMeta)
    (axis : Nat) : List Effect :=
  let sizes := (inputs.map fun p => p.shape.getD axis 0).scanl (· + ·) 0
  let strides := out.strides
  let flags := Concatenate.clearFlags out.flags
  Effect.alloc out.nbytes :: Effect.startConcurrent ::
  iterEffects
    (fun i =>
      let data_offset := strides.getD axis 0 * sizes.getD i 0
      [Effect.sharedView data_offset strides flags
        (inputs.getD i default).size,
       Effect.copyGpuInplace CopyType.GeneralGeneral])
    inputs.length

/-- `QRF::eval_gpu`: unconditionally throws, performing nothing. -/
def QRF.eval_gpu (_inputs _outputs : List ArrayMeta) :
    List Effect × Option String :=
  ([], some "[QRF::eval_gpu] Metal QR factorization NYI.")

/-- `SVD::eval_gpu`: unconditionally throws, performing nothing. -/
def SVD.eval_gpu (_inputs _outputs : List ArrayMeta) :
    List Effect × Option String :=
  ([], some "[SVD::eval_gpu] Metal SVD NYI.")

/-- `Inverse::eval_gpu`: unconditionally throws, performing nothing. -/
def Inverse.eval_gpu (_inputs : List ArrayMeta) (_output : ArrayMeta) :
    List Effect × Option String :=
  ([], some "[Inverse::eval_gpu] Metal inversion NYI.")

/-! ### Concrete arrays used by counterexamples and witnesses -/

/-- An input of shape `(0, 5)`: its arg-reduction along axis 1 has an
empty output. -/
def exIn05 : ArrayMeta :=
  ⟨[0, 5], [5, 1], Dtype.float32, 0, ⟨true, true, false⟩⟩

/-- The empty `uint32` output of reducing `exIn05` along axis 1. -/
def exOutEmptyU32 : ArrayMeta :=
  ⟨[0], [1], Dtype.uint32, 0, ⟨true, true, false⟩⟩

/-- An empty boolean output for `Arange`. -/
def exEmptyBool : ArrayMeta :=
  ⟨[0], [1], Dtype.bool_, 0, ⟨true, true, false⟩⟩

/-- A non-empty boolean output for `Arange`. -/
def exBool3 : ArrayMeta :=
  ⟨[3], [1], Dtype.bool_, 3, ⟨true, true, false⟩⟩

/-- A non-complex output for `Conjugate`. -/
def exFloat2 : ArrayMeta :=
  ⟨[2], [1], Dtype.float32, 2, ⟨true, true, false⟩⟩

/-- A `(3, 2)` key array for `RandomBits` (3 keys). -/
def exKeys3 : ArrayMeta :=
  ⟨[3, 2], [2, 1], Dtype.uint32, 6, ⟨true, true, false⟩⟩

/-- A `(3, 8)` `uint8` output for `RandomBits`: 8 bytes per key. -/
def exRbitsOut : ArrayMeta :=
  ⟨[3, 8], [8, 1], Dtype.uint8, 24, ⟨true, true, false⟩⟩

/-- A broadcast scalar seen by `Full`: logical shape `(2)`, stride 0,
a single element of backing data. -/
def exBroadcastScalar : ArrayMeta :=
  ⟨[2], [0], Dtype.float32, 1, ⟨true, false, false⟩⟩

/-- A `(2, 5)` input for `ArgReduce` along axis 1. -/
def exIn25 : ArrayMeta :=
  ⟨[2, 5], [5, 1], Dtype.float32, 10, ⟨true, true, false⟩⟩

/-- The `(2)` output of reducing `exIn25` along axis 1. -/
def exOut2U32 : ArrayMeta :=
  ⟨[2], [1], Dtype.uint32, 2, ⟨true, true, false⟩⟩

/-- An empty update array for `SliceUpdate`. -/
def exUpdEmpty : ArrayMeta :=
  ⟨[0, 3], [3, 1], Dtype.float32, 0, ⟨true, true, false⟩⟩

/-- A `(4, 3)` base input for `SliceUpdate`. -/
def exBase43 : ArrayMeta :=
  ⟨[4, 3], [3, 1], Dtype.float32, 12, ⟨true, true, false⟩⟩

/-! ### Claims -/

/-- Claim C9: the dense factorization stubs `QRF`, `SVD`, `Inverse` always
raise a not-implemented error, for every input, with an empty effect trace
(no allocation, no dispatch). -/
theorem claim_C9 (ins1 outs1 ins2 outs2 ins3 : List ArrayMeta)
    (out3 : ArrayMeta) :
    QRF.eval_gpu ins1 outs1 =
      ([], some "[QRF::eval_gpu] Metal QR factorization NYI.")
    ∧ SVD.eval_gpu ins2 outs2 = ([], some "[SVD::eval_gpu] Metal SVD NYI.")
    ∧ Inverse.eval_gpu ins3 out3 =
      ([], some "[Inverse::eval_gpu] Metal inversion NYI.") :=
  ⟨rfl, rfl, rfl⟩

/-- Claim C10: on a non-empty `bool` or `complex64` output, `Arange`
allocates and binds the output buffer and sets the pipeline state first,
and only then raises the unsupported-dtype error: the output's data
binding changes although the call fails. -/
theorem claim_C10 (out : ArrayMeta) (maxTG : Nat) (h : 0 < out.size)
    (hd : out.dtype = Dtype.bool_ ∨ out.dtype = Dtype.complex64) :
    ∃ msg, Arange.eval_gpu out maxTG =
      ([Effect.alloc out.nbytes, Effect.setPipeline "arange" (some out.dtype)],
        some msg) := by
  have hs : ¬ out.size = 0 := Nat.pos_iff_ne_zero.mp h
  rcases hd with hd | hd
  · exact ⟨"[Arange::eval_gpu] Does not support bool", by
      simp [Arange.eval_gpu, hs, hd]⟩
  · exact ⟨"[Arange::eval_gpu] Does not support complex64", by
      simp [Arange.eval_gpu, hs, hd]⟩

/-- Witness for C10 at the concrete non-empty boolean output `exBool3`. -/
theorem claim_C10_witness :
    ∃ msg, Arange.eval_gpu exBool3 1024 =
      ([Effect.alloc exBool3.nbytes,
        Effect.setPipeline "arange" (some exBool3.dtype)], some msg) :=
  claim_C10 exBool3 1024 (by decide) (Or.inl rfl)

/-- Counterexample to claim C5 as stated: `Arange` on an EMPTY boolean
output raises no error (it returns right after the allocation), so range
generation on a boolean dtype does not ALWAYS raise. -/
theorem claim_C5_counterexample :
    exEmptyBool.dtype = Dtype.bool_
    ∧ (Arange.eval_gpu exEmptyBool 1024).2 = none := ⟨rfl, rfl⟩

/-- Claim C5 as amended: `Arange` on a `bool` or `complex64` output raises
an unsupported-configuration error iff the output is non-empty, and never
dispatches a kernel on such a dtype; `Conjugate` on a non-`complex64`
output always raises, performing nothing.  Both errors are synchronous
results of the evaluation itself; nothing is retried. -/
theorem claim_C5_amended (outA outC : ArrayMeta) (insC : List ArrayMeta)
    (maxTG : Nat)
    (hd : outA.dtype = Dtype.bool_ ∨ outA.dtype = Dtype.complex64)
    (hc : outC.dtype ≠ Dtype.complex64) :
    ((Arange.eval_gpu outA maxTG).2.isSome ↔ 0 < outA.size)
    ∧ dispatchFree (Arange.eval_gpu outA maxTG).1 = true
    ∧ (Conjugate.eval_gpu insC outC).2.isSome = true
    ∧ (Conjugate.eval_gpu insC outC).1 = [] := by
  have hconj : Conjugate.eval_gpu insC outC =
      ([], some "[conjugate] conjugate must be called on complex input.") := by
    simp [Conjugate.eval_gpu, hc]
  by_cases hs : outA.size = 0
  · rcases hd with hd | hd <;>
      simp [Arange.eval_gpu, hs, hd, hconj, dispatchFree, isDispatch]
  · rcases hd with hd | hd <;>
      simp [Arange.eval_gpu, hs, hd, hconj, dispatchFree, isDispatch,
        Nat.pos_of_ne_zero hs]

/-- Witness for amended C5 at a non-empty boolean `Arange` output and a
`float32` `Conjugate` output. -/
theorem claim_C5_witness :
    ((Arange.eval_gpu exBool3 1024).2.isSome ↔ 0 < exBool3.size)
    ∧ dispatchFree (Arange.eval_gpu exBool3 1024).1 = true
    ∧ (Conjugate.eval_gpu [] exFloat2).2.isSome = true
    ∧ (Conjugate.eval_gpu [] exFloat2).1 = [] :=
  claim_C5_amended exBool3 exFloat2 [] 1024 (Or.inl rfl) (by decide)

/-- Claim C7: a `SliceUpdate` whose update tensor is empty while the
output is not aliases the base input's buffer into the output and does
nothing else: no allocation, no dispatch, no copy. -/
theorem claim_C7 (inM upd out : ArrayMeta) (h : upd.size = 0)
    (h2 : out.size ≠ 0) :
    SliceUpdate.eval_gpu inM upd out = [Effect.aliasShared]
    ∧ allocFree (SliceUpdate.eval_gpu inM upd out) = true
    ∧ dispatchFree (SliceUpdate.eval_gpu inM upd out) = true
    ∧ copyFree (SliceUpdate.eval_gpu inM upd out) = true := by
  have he : SliceUpdate.eval_gpu inM upd out = [Effect.aliasShared] := by
    simp [SliceUpdate.eval_gpu, h, h2]
  simp [he, allocFree, dispatchFree, copyFree, isAlloc, isDispatch, isCopy]

/-- Witness for C7: empty update into a non-empty `(4, 3)` output. -/
theorem claim_C7_witness :
    SliceUpdate.eval_gpu exBase43 exUpdEmpty exBase43 = [Effect.aliasShared]
    ∧ allocFree (SliceUpdate.eval_gpu exBase43 exUpdEmpty exBase43) = true
    ∧ dispatchFree (SliceUpdate.eval_gpu exBase43 exUpdEmpty exBase43) = true
    ∧ copyFree (SliceUpdate.eval_gpu exBase43 exUpdEmpty exBase43) = true :=
  claim_C7 exBase43 exUpdEmpty exBase43 (by decide) (by decide)

/-- Counterexample to claim C4 as stated: a broadcast scalar (stride-0
view of one element, `data_size() == 1`) has two LOGICAL elements and a
set contiguous flag, so the claimed policy would pick `Vector`; the code
tests `data_size() == 1` and picks `Scalar`. -/
theorem claim_C4_counterexample :
    exBroadcastScalar.size ≠ 1
    ∧ exBroadcastScalar.flags.contiguous = true
    ∧ Full.copyType exBroadcastScalar = CopyType.Scalar
    ∧ Full.copyTypeLogical exBroadcastScalar = CopyType.Vector
    ∧ Full.copyTypeLogical exBroadcastScalar ≠ Full.copyType exBroadcastScalar := by
  decide

/-- Claim C4 as amended: `Full` selects exactly one `CopyType`, `Scalar`
when the source's backing data holds exactly one element
(`data_size() == 1`, the broadcast-scalar case), otherwise `Vector` when
the source's contiguous flag is set, otherwise `General`; the selection is
exhaustive and deterministic over all `(data_size == 1, contiguous)`
combinations, and `GeneralGeneral` is never selected. -/
theorem claim_C4_amended (m : ArrayMeta) :
    (Full.copyType m = CopyType.Scalar ↔ m.dataSize = 1)
    ∧ (Full.copyType m = CopyType.Vector ↔
        m.dataSize ≠ 1 ∧ m.flags.contiguous = true)
    ∧ (Full.copyType m = CopyType.General ↔
        m.dataSize ≠ 1 ∧ m.flags.contiguous = false)
    ∧ Full.copyType m ≠ CopyType.GeneralGeneral
    ∧ Full.eval_gpu m = [Effect.copyGpu (Full.copyType m)] := by
  unfold Full.eval_gpu Full.copyType
  split_ifs with h1 h2 <;> simp_all

/-- Claim C3: the `RandomBits` dispatch grid is exactly
`(num_keys, half_size + odd, 1)` with `num_keys = keys.size()/2`,
`bytes_per_key = itemsize * (out.size()/num_keys)`,
`out_per_key = ceil(bytes_per_key/4)`, `half_size = out_per_key/2` and
`odd = out_per_key mod 2`. -/
theorem claim_C3 (keys out : ArrayMeta) (maxTG : Nat) (h : 0 < out.size) :
    Effect.dispatchThreads
        (MTLSize.mk (keys.size / 2)
          ((out.itemsize * (out.size / (keys.size / 2)) + 4 - 1) / 4 / 2 +
            (out.itemsize * (out.size / (keys.size / 2)) + 4 - 1) / 4 % 2)
          1)
        (MTLSize.mk maxTG 1 1)
      ∈ RandomBits.eval_gpu keys out maxTG := by
  have hs : ¬ out.size = 0 := Nat.pos_iff_ne_zero.mp h
  simp [RandomBits.eval_gpu, hs]
  rcases Nat.mod_two_eq_zero_or_one
      ((out.itemsize * (out.size / (keys.size / 2)) + 3) / 4) with h2 | h2 <;>
    simp [h2]

/-- Witness for C3, the spec's own instance: 3 keys, 8 bytes per key
(1-byte dtype), grid exactly `(3, 1, 1)`. -/
theorem claim_C3_witness :
    Effect.dispatchThreads (MTLSize.mk 3 1 1) (MTLSize.mk 256 1 1)
      ∈ RandomBits.eval_gpu exKeys3 exRbitsOut 256 :=
  claim_C3 exKeys3 exRbitsOut 256 (by decide)

/-- The arg-reduction thread-group size as the specification words it:
`ceil(axis_size/4)` elements per thread (`n_reads = 4`), rounded up to the
nearest multiple of the SIMD width 32, capped at the kernel's maximum
thread-group size. -/
def ArgReduce.claimedGroupSize (axis_size maxTG : Nat) : Nat :=
  min (((axis_size + 4 - 1) / 4 + 32 - 1) / 32 * 32) maxTG

/-- Rounding up to a multiple of 32 commutes with capping at a bound that
is itself a multiple of 32. -/
theorem roundup32_min (c M : Nat) (h : 32 ∣ M) :
    (min c M + 32 - 1) / 32 * 32 = min ((c + 32 - 1) / 32 * 32) M := by
  obtain ⟨k, rfl⟩ := h
  rcases Nat.le_total c (32 * k) with hc | hc
  · have h1 : (c + 32 - 1) / 32 * 32 ≤ 32 * k := by omega
    rw [Nat.min_eq_left hc, Nat.min_eq_left h1]
  · have h1 : 32 * k ≤ (c + 32 - 1) / 32 * 32 := by omega
    rw [Nat.min_eq_right hc, Nat.min_eq_right h1]
    omega

/-- When the kernel's maximum thread-group size is a multiple of the SIMD
width (as on Metal hardware), the code's cap-then-round computation agrees
with the specification's round-then-cap description. -/
theorem threadGroupSize_eq_claimed (axis_size maxTG : Nat)
    (h32 : 32 ∣ maxTG) :
    ArgReduce.threadGroupSize axis_size maxTG =
      ArgReduce.claimedGroupSize axis_size maxTG := by
  simp only [ArgReduce.threadGroupSize, ArgReduce.claimedGroupSize]
  exact roundup32_min _ _ h32

/-- Claim C2: the `ArgReduce` dispatch uses a thread group of
`ceil(axis_size/4)` threads rounded up to a multiple of the SIMD width 32
and capped at the kernel maximum, and issues exactly `out.size()` such
groups (grid of `out.size() * group` threads in groups of `group`),
provided the kernel maximum is a positive multiple of 32 and the reduced
axis is non-trivial. -/
theorem claim_C2 (inM out : ArrayMeta) (axis : Nat) (rt : ReduceType)
    (maxTG : Nat) (h32 : 32 ∣ maxTG) (hM : 0 < maxTG)
    (ha : 0 < inM.shape.getD axis 0) :
    Effect.dispatchThreads
        (MTLSize.mk
          (out.size * ArgReduce.claimedGroupSize (inM.shape.getD axis 0) maxTG)
          1 1)
        (MTLSize.mk (ArgReduce.claimedGroupSize (inM.shape.getD axis 0) maxTG)
          1 1)
      ∈ ArgReduce.eval_gpu inM out axis rt maxTG
    ∧ 0 < ArgReduce.claimedGroupSize (inM.shape.getD axis 0) maxTG
    ∧ out.size * ArgReduce.claimedGroupSize (inM.shape.getD axis 0) maxTG /
        ArgReduce.claimedGroupSize (inM.shape.getD axis 0) maxTG = out.size := by
  have hb := threadGroupSize_eq_claimed (inM.shape.getD axis 0) maxTG h32
  have hpos : 0 < ArgReduce.claimedGroupSize (inM.shape.getD axis 0) maxTG := by
    unfold ArgReduce.claimedGroupSize
    omega
  refine ⟨?_, hpos, Nat.mul_div_left out.size hpos⟩
  rw [← hb]
  simp [ArgReduce.eval_gpu]

/-- Witness for C2: arg-max over axis 1 of a `(2, 5)` input with kernel
maximum 1024 — a single 32-thread group per output element, 2 groups. -/
theorem claim_C2_witness :
    Effect.dispatchThreads
        (MTLSize.mk
          (exOut2U32.size *
            ArgReduce.claimedGroupSize (exIn25.shape.getD 1 0) 1024) 1 1)
        (MTLSize.mk (ArgReduce.claimedGroupSize (exIn25.shape.getD 1 0) 1024)
          1 1)
      ∈ ArgReduce.eval_gpu exIn25 exOut2U32 1 ReduceType.ArgMax 1024
    ∧ 0 < ArgReduce.claimedGroupSize (exIn25.shape.getD 1 0) 1024
    ∧ exOut2U32.size * ArgReduce.claimedGroupSize (exIn25.shape.getD 1 0) 1024 /
        ArgReduce.claimedGroupSize (exIn25.shape.getD 1 0) 1024 =
        exOut2U32.size :=
  claim_C2 exIn25 exOut2U32 1 ReduceType.ArgMax 1024 (by decide) (by decide)
    (by decide)

/-- Counterexample to claim C1 as stated: `ArgReduce` has no empty-output
short-circuit — on an empty output it still calls the allocator and still
issues its kernel dispatch (with a zero-sized grid), so not every
operation with `out.size() == 0` allocates no buffer and dispatches
nothing. -/
theorem claim_C1_counterexample :
    exOutEmptyU32.size = 0
    ∧ allocFree
        (ArgReduce.eval_gpu exIn05 exOutEmptyU32 1 ReduceType.ArgMax 1024) =
        false
    ∧ dispatchFree
        (ArgReduce.eval_gpu exIn05 exOutEmptyU32 1 ReduceType.ArgMax 1024) =
        false :=
  ⟨rfl, rfl, rfl⟩

/-- Claim C1 as amended: on `out.size() == 0`, `Slice` and `SliceUpdate`
bind a null buffer, allocating and dispatching nothing; `Arange` and
`RandomBits` still call the allocator (for `out.nbytes() == 0` bytes) but
dispatch nothing; `ArgReduce` both allocates and issues its dispatch, with
a grid of zero total threads. -/
theorem claim_C1_amended (out keys inM upd : ArrayMeta) (maxTG axis : Nat)
    (rt : ReduceType) (cn : Bool) (doff : Nat) (istr : List Nat)
    (h : out.size = 0) :
    Arange.eval_gpu out maxTG = ([Effect.alloc out.nbytes], none)
    ∧ RandomBits.eval_gpu keys out maxTG = [Effect.alloc out.nbytes]
    ∧ Slice.eval_gpu inM out cn doff istr = [Effect.setDataNull]
    ∧ SliceUpdate.eval_gpu inM upd out = [Effect.setDataNull]
    ∧ Effect.alloc out.nbytes ∈ ArgReduce.eval_gpu inM out axis rt maxTG
    ∧ Effect.dispatchThreads (MTLSize.mk 0 1 1)
        (MTLSize.mk (ArgReduce.threadGroupSize (inM.shape.getD axis 0) maxTG)
          1 1)
      ∈ ArgReduce.eval_gpu inM out axis rt maxTG := by
  refine ⟨?_, ?_, ?_, ?_, ?_, ?_⟩ <;>
    simp [Arange.eval_gpu, RandomBits.eval_gpu, Slice.eval_gpu,
      SliceUpdate.eval_gpu, ArgReduce.eval_gpu, h]

/-- Witness for amended C1 at concrete empty outputs. -/
theorem claim_C1_witness :
    Arange.eval_gpu exOutEmptyU32 1024 =
      ([Effect.alloc exOutEmptyU32.nbytes], none)
    ∧ RandomBits.eval_gpu exKeys3 exOutEmptyU32 1024 =
      [Effect.alloc exOutEmptyU32.nbytes]
    ∧ Slice.eval_gpu exIn05 exOutEmptyU32 false 0 [] = [Effect.setDataNull]
    ∧ SliceUpdate.eval_gpu exIn05 exUpdEmpty exOutEmptyU32 =
      [Effect.setDataNull]
    ∧ Effect.alloc exOutEmptyU32.nbytes
      ∈ ArgReduce.eval_gpu exIn05 exOutEmptyU32 1 ReduceType.ArgMax 1024
    ∧ Effect.dispatchThreads (MTLSize.mk 0 1 1)
        (MTLSize.mk (ArgReduce.threadGroupSize (exIn05.shape.getD 1 0) 1024)
          1 1)
      ∈ ArgReduce.eval_gpu exIn05 exOutEmptyU32 1 ReduceType.ArgMax 1024 :=
  claim_C1_amended exOutEmptyU32 exKeys3 exIn05 exUpdEmpty 1024 1
    ReduceType.ArgMax false 0 [] (by decide)

/-- A fold of `a + g i` over `[0, n)` is `a` plus the sum of `g`. -/
theorem foldl_range_add (g : Nat → Nat) (a n : Nat) :
    (List.range n).foldl (fun acc i => acc + g i) a =
      a + ∑ i ∈ Finset.range n, g i := by
  induction n generalizing a with
  | zero => simp
  | succ n ih =>
      rw [List.range_succ, List.foldl_append]
      simp [ih, Finset.sum_range_succ, Nat.add_assoc]

/-- Claim C6: `Pad` first fills the whole output with the scalar pad value
(`Scalar` copy), then builds a shared-buffer view of the interior at the
offset `Σ low_pad_size_i * out.strides()[ax_i]` — a negative axis `ax`
resolving to `ndim + ax` — and populates it from the input with a
`GeneralGeneral` copy. -/
theorem claim_C6 (inM val out : ArrayMeta) (axes : List Int)
    (low_pad : List Nat) :
    Pad.eval_gpu inM val out axes low_pad =
      [Effect.copyGpu CopyType.Scalar,
       Effect.sharedView
         (∑ i ∈ Finset.range axes.length,
           low_pad.getD i 0 *
             out.strides.getD (resolveAxis out.ndim (axes.getD i 0)) 0)
         out.strides out.flags inM.size,
       Effect.copyGpuInplace CopyType.GeneralGeneral] := by
  have hoff : Pad.dataOffset out axes low_pad =
      ∑ i ∈ Finset.range axes.length,
        low_pad.getD i 0 *
          out.strides.getD (resolveAxis out.ndim (axes.getD i 0)) 0 := by
    unfold Pad.dataOffset
    rw [foldl_range_add, Nat.zero_add]
    exact Finset.sum_congr rfl fun i _ => Nat.mul_comm _ _
  unfold Pad.eval_gpu
  rw [hoff]

/-! ### Strided address arithmetic, for the Concatenate disjointness claim -/

/-- Flat element offset of a multi-index under per-dimension strides. -/
def dotProd : List Nat → List Nat → Nat
  | s :: ss, i :: is => s * i + dotProd ss is
  | _, _ => 0

/-- Canonical row-major strides of a shape: each dimension's stride is the
product of the dimensions after it. -/
def rowMajorStrides : List Nat → List Nat
  | [] => []
  | _ :: ds => ds.prod :: rowMajorStrides ds

/-- The set of flat addresses reachable by a strided view: some in-bounds
multi-index of the view's shape lands on `a`. -/
def viewAddr (offset : Nat) (strides shape : List Nat) (a : Nat) : Prop :=
  ∃ idx, List.Forall₂ (· < ·) idx shape ∧ a = offset + dotProd strides idx

theorem rowMajorStrides_length (l : List Nat) :
    (rowMajorStrides l).length = l.length := by
  induction l with
  | nil => rfl
  | cons d ds ih => simp [rowMajorStrides, ih]

theorem dotProd_rowMajor_lt {idx shape : List Nat}
    (h : List.Forall₂ (· < ·) idx shape) :
    dotProd (rowMajorStrides shape) idx < shape.prod := by
  induction h with
  | nil => simp [dotProd, rowMajorStrides]
  | @cons i d is ds hlt htail ih =>
      simp only [rowMajorStrides, dotProd, List.prod_cons]
      calc ds.prod * i + dotProd (rowMajorStrides ds) is
          < ds.prod * i + ds.prod := Nat.add_lt_add_left ih _
        _ = ds.prod * (i + 1) := by rw [Nat.mul_succ]
        _ ≤ ds.prod * d := Nat.mul_le_mul_left _ hlt
        _ = d * ds.prod := Nat.mul_comm _ _

/-- Uniqueness of Euclidean decomposition `p * q + r` with `r < p`. -/
theorem euclid_unique {p a b r s : Nat} (hr : r < p) (hs : s < p)
    (h : p * a + r = p * b + s) : a = b ∧ r = s := by
  have hp : 0 < p := Nat.lt_of_le_of_lt (Nat.zero_le r) hr
  have ha : (p * a + r) / p = a := by
    rw [Nat.mul_add_div hp, Nat.div_eq_of_lt hr, Nat.add_zero]
  have hb : (p * b + s) / p = b := by
    rw [Nat.mul_add_div hp, Nat.div_eq_of_lt hs, Nat.add_zero]
  have hab : a = b := by rw [← ha, ← hb, h]
  subst hab
  exact ⟨rfl, by omega⟩

/-- Row-major flattening is injective on in-bounds multi-indices. -/
theorem dotProd_rowMajor_inj {idx idx' shape : List Nat}
    (h : List.Forall₂ (· < ·) idx shape)
    (h' : List.Forall₂ (· < ·) idx' shape)
    (heq : dotProd (rowMajorStrides shape) idx =
      dotProd (rowMajorStrides shape) idx') : idx = idx' := by
  induction shape generalizing idx idx' with
  | nil =>
      cases h
      cases h'
      rfl
  | cons d ds ih =>
      rw [List.forall₂_cons_right_iff] at h h'
      obtain ⟨i, is, hlt, htail, rfl⟩ := h
      obtain ⟨i', is', hlt', htail', rfl⟩ := h'
      simp only [rowMajorStrides, dotProd] at heq
      obtain ⟨h1, h2⟩ :=
        euclid_unique (dotProd_rowMajor_lt htail) (dotProd_rowMajor_lt htail')
          heq
      rw [h1, ih htail htail' h2]

/-- Bumping one coordinate of a multi-index adds that coordinate's stride
times the bump to the flat offset. -/
theorem dotProd_set_add (s idx : List Nat) (k c : Nat)
    (hk : k < idx.length) (hl : idx.length ≤ s.length) :
    dotProd s (idx.set k (idx.getD k 0 + c)) =
      dotProd s idx + s.getD k 0 * c := by
  induction idx generalizing s k with
  | nil => simp at hk
  | cons i is ih =>
      cases s with
      | nil => simp at hl
      | cons s0 ss =>
          cases k with
          | zero =>
              simp only [List.set, List.getD_cons_zero, dotProd]
              ring
          | succ k =>
              simp only [List.set, List.getD_cons_succ, dotProd]
              rw [ih ss k (by simpa using hk) (by simpa using hl)]
              ring

/-- `Forall₂` is preserved by setting related values at one position. -/
theorem forall₂_set {r : Nat → Nat → Prop} {idx shape : List Nat}
    (h : List.Forall₂ r idx shape) {v w : Nat} (hvw : r v w) :
    ∀ k, List.Forall₂ r (idx.set k v) (shape.set k w) := by
  induction h with
  | nil => intro k; exact List.Forall₂.nil
  | cons h1 h2 ih =>
      intro k
      cases k with
      | zero => exact List.Forall₂.cons hvw h2
      | succ k => exact List.Forall₂.cons h1 (ih k)

theorem forall₂_getD_lt {idx shape : List Nat}
    (h : List.Forall₂ (· < ·) idx shape) :
    ∀ k, k < shape.length → idx.getD k 0 < shape.getD k 0 := by
  induction h with
  | nil => intro k hk; simp at hk
  | cons h1 h2 ih =>
      intro k hk
      cases k with
      | zero => simpa using h1
      | succ k => simpa using ih k (by simpa using hk)

theorem getD_set_self (l : List Nat) (k v : Nat) (h : k < l.length) :
    (l.set k v).getD k 0 = v := by
  induction l generalizing k with
  | nil => simp at h
  | cons a as ih =>
      cases k with
      | zero => rfl
      | succ k => simpa using ih k (by simpa using h)

theorem list_eq_of_getD {l₁ l₂ : List Nat} (hlen : l₁.length = l₂.length)
    (h : ∀ m, m < l₁.length → l₁.getD m 0 = l₂.getD m 0) : l₁ = l₂ := by
  induction l₁ generalizing l₂ with
  | nil =>
      cases l₂ with
      | nil => rfl
      | cons b bs => simp at hlen
  | cons a as ih =>
      cases l₂ with
      | nil => simp at hlen
      | cons b bs =>
          have h0 : a = b := by simpa using h 0 (by simp)
          have ht : as = bs :=
            ih (by simpa using hlen)
              (fun m hm => by simpa using h (m + 1) (by simpa using hm))
          rw [h0, ht]

/-- Two same-length lists that agree off position `k` differ only by a
`set` at `k`. -/
theorem eq_set_of_agree {l₁ l₂ : List Nat} (k : Nat)
    (hk : k < l₁.length) (hlen : l₁.length = l₂.length)
    (hag : ∀ m, m < l₁.length → m ≠ k → l₁.getD m 0 = l₂.getD m 0) :
    l₂ = l₁.set k (l₂.getD k 0) := by
  induction l₁ generalizing l₂ k with
  | nil => simp at hk
  | cons a as ih =>
      cases l₂ with
      | nil => simp at hlen
      | cons b bs =>
          cases k with
          | zero =>
              have ht : as = bs :=
                list_eq_of_getD (by simpa using hlen)
                  (fun m hm => by
                    simpa using hag (m + 1) (by simpa using hm) (by simp))
              simp [List.set, ht]
          | succ k =>
              have h0 : a = b := by
                simpa using hag 0 (by simp) (by simp)
              have ht := ih k (by simpa using hk) (by simpa using hlen)
                (fun m hm hmk => by
                  simpa using hag (m + 1) (by simpa using hm) (by omega))
              simp only [List.set, List.getD_cons_succ]
              rw [h0, ← ht]

theorem getD_mem {α} [Inhabited α] (l : List α) (i : Nat)
    (h : i < l.length) : l.getD i default ∈ l := by
  induction l generalizing i with
  | nil => simp at h
  | cons x xs ih =>
      cases i with
      | zero => simp [List.getD_cons_zero]
      | succ i =>
          exact List.mem_cons_of_mem _ (ih i (by simpa using h))

/-- Entries of an inclusive prefix scan (`std::partial_sum` over the list
with a leading 0) are the prefix sums. -/
theorem scanl_add_getD (l : List Nat) (a i : Nat) (h : i ≤ l.length) :
    (l.scanl (· + ·) a).getD i 0 = a + ∑ j ∈ Finset.range i, l.getD j 0 := by
  induction l generalizing a i with
  | nil =>
      have hi : i = 0 := by simpa using h
      subst hi
      simp [List.scanl]
  | cons x xs ih =>
      cases i with
      | zero => simp [List.scanl]
      | succ i =>
          have hx := ih (a + x) i (by simpa using h)
          simp only [List.scanl, List.getD_cons_succ, hx,
            Finset.sum_range_succ', List.getD_cons_zero]
          omega

theorem getD_map_axisDim (inputs : List ArrayMeta) (axis i : Nat) :
    (inputs.map fun p => p.shape.getD axis 0).getD i 0 =
      (inputs.getD i default).shape.getD axis 0 := by
  induction inputs generalizing i with
  | nil => rfl
  | cons p ps ih =>
      cases i with
      | zero => rfl
      | succ i => simpa using ih i

theorem sum_range_getD (l : List Nat) :
    ∑ j ∈ Finset.range l.length, l.getD j 0 = l.sum := by
  induction l with
  | nil => simp
  | cons x xs ih =>
      simp only [List.length_cons, Finset.sum_range_succ',
        List.getD_cons_succ, List.getD_cons_zero, ih, List.sum_cons]
      omega

theorem iterEffects_congr {f g : Nat → List Effect} (n : Nat)
    (h : ∀ i, i < n → f i = g i) : iterEffects f n = iterEffects g n := by
  induction n with
  | zero => rfl
  | succ n ih =>
      simp [iterEffects, ih (fun i hi => h i (by omega)), h n (by omega)]

/-- The destination offset `Concatenate` gives input `i`: the output's
stride along the concatenation axis times the prefix sum of the previous
inputs' extents along that axis. -/
def concatOffset (inputs : List ArrayMeta) (out : ArrayMeta)
    (axis i : Nat) : Nat :=
  out.strides.getD axis 0 *
    ∑ j ∈ Finset.range i, (inputs.getD j default).shape.getD axis 0

/-- Claim C8: `Concatenate` writes each input through a shared-buffer view
of the output placed at the prefix-sum offset
`out.strides[axis] * Σ_{j<i} inputs[j].shape[axis]`, with the view's
`contiguous`, `row_contiguous` and `col_contiguous` flags all cleared,
populating each view with a `GeneralGeneral` copy; and for a freshly
allocated (row-major-strided) output whose extent along the axis holds all
inputs, the views of distinct inputs cover disjoint sets of flat buffer
addresses. -/
theorem claim_C8 (inputs : List ArrayMeta) (out : ArrayMeta) (axis : Nat)
    (hrm : out.strides = rowMajorStrides out.shape)
    (hax : axis < out.shape.length)
    (hlen : ∀ m ∈ inputs, m.shape.length = out.shape.length)
    (hagree : ∀ m ∈ inputs, ∀ k, k < out.shape.length → k ≠ axis →
      m.shape.getD k 0 = out.shape.getD k 0)
    (htot : (inputs.map fun p => p.shape.getD axis 0).sum ≤
      out.shape.getD axis 0) :
    Concatenate.eval_gpu inputs out axis =
      Effect.alloc out.nbytes :: Effect.startConcurrent ::
        iterEffects (fun i =>
          [Effect.sharedView (concatOffset inputs out axis i) out.strides
            (Flags.mk false false false) (inputs.getD i default).size,
           Effect.copyGpuInplace CopyType.GeneralGeneral]) inputs.length
    ∧ Concatenate.clearFlags out.flags = Flags.mk false false false
    ∧ (∀ i j, i < j → j < inputs.length → ∀ a,
        viewAddr (concatOffset inputs out axis i) out.strides
          (inputs.getD i default).shape a →
        viewAddr (concatOffset inputs out axis j) out.strides
          (inputs.getD j default).shape a → False) := by
  have hstr : out.strides.length = out.shape.length := by
    rw [hrm, rowMajorStrides_length]
  have hsum : ∀ i, i ≤ inputs.length →
      ((inputs.map fun p => p.shape.getD axis 0).scanl (· + ·) 0).getD i 0 =
        ∑ j ∈ Finset.range i, (inputs.getD j default).shape.getD axis 0 := by
    intro i hi
    rw [scanl_add_getD _ _ _ (by simpa using hi), Nat.zero_add]
    exact Finset.sum_congr rfl fun j _ => getD_map_axisDim inputs axis j
  have htot' : ∀ t, t < inputs.length →
      (∑ u ∈ Finset.range t, (inputs.getD u default).shape.getD axis 0) +
        (inputs.getD t default).shape.getD axis 0 ≤
        out.shape.getD axis 0 := by
    intro t ht
    have h1 : (∑ u ∈ Finset.range (t + 1),
          (inputs.getD u default).shape.getD axis 0) ≤
        ∑ u ∈ Finset.range inputs.length,
          (inputs.getD u default).shape.getD axis 0 :=
      Finset.sum_le_sum_of_subset (Finset.range_subset.mpr ht)
    have h2 : (∑ u ∈ Finset.range inputs.length,
          (inputs.getD u default).shape.getD axis 0) =
        (inputs.map fun p => p.shape.getD axis 0).sum := by
      rw [← sum_range_getD]
      simp only [List.length_map]
      exact Finset.sum_congr rfl
        fun u _ => (getD_map_axisDim inputs axis u).symm
    rw [Finset.sum_range_succ] at h1
    omega
  have hbump : ∀ (t : Nat), t < inputs.length → ∀ (ix : List Nat),
      List.Forall₂ (· < ·) ix (inputs.getD t default).shape →
      (concatOffset inputs out axis t + dotProd out.strides ix =
        dotProd out.strides
          (ix.set axis (ix.getD axis 0 +
            ∑ u ∈ Finset.range t, (inputs.getD u default).shape.getD axis 0)))
      ∧ List.Forall₂ (· < ·)
          (ix.set axis (ix.getD axis 0 +
            ∑ u ∈ Finset.range t, (inputs.getD u default).shape.getD axis 0))
          out.shape := by
    intro t ht ix hv
    have hmt : inputs.getD t default ∈ inputs := getD_mem _ _ ht
    have hL := hlen _ hmt
    have hlent : ix.length = out.shape.length := by rw [hv.length_eq, hL]
    constructor
    · rw [dotProd_set_add out.strides ix axis _ (by omega) (by omega)]
      simp only [concatOffset]
      exact Nat.add_comm _ _
    · have hsh : out.shape =
          (inputs.getD t default).shape.set axis (out.shape.getD axis 0) := by
        apply eq_set_of_agree axis (by omega) hL
        intro m hm hmk
        exact hagree _ hmt m (by omega) hmk
      rw [hsh]
      refine forall₂_set hv ?_ axis
      have h1 := forall₂_getD_lt hv axis (by omega)
      have h2 := htot' t ht
      omega
  refine ⟨?_, rfl, ?_⟩
  · simp only [Concatenate.eval_gpu]
    congr 2
    apply iterEffects_congr
    intro i hi
    rw [hsum i (Nat.le_of_lt hi)]
    rfl
  · intro i j hij hj a hai haj
    have hi : i < inputs.length := Nat.lt_trans hij hj
    obtain ⟨idx, hvi, rfl⟩ := hai
    obtain ⟨idx', hvj, haj'⟩ := haj
    have hleni : idx.length = out.shape.length := by
      rw [hvi.length_eq, hlen _ (getD_mem _ _ hi)]
    have hlenj : idx'.length = out.shape.length := by
      rw [hvj.length_eq, hlen _ (getD_mem _ _ hj)]
    obtain ⟨heqi, hvi'⟩ := hbump i hi idx hvi
    obtain ⟨heqj, hvj'⟩ := hbump j hj idx' hvj
    rw [heqi, heqj] at haj'
    rw [hrm] at haj'
    have hbeq := dotProd_rowMajor_inj hvi' hvj' haj'
    have hgi := getD_set_self idx axis
      (idx.getD axis 0 +
        ∑ u ∈ Finset.range i, (inputs.getD u default).shape.getD axis 0)
      (by omega)
    have hgj := getD_set_self idx' axis
      (idx'.getD axis 0 +
        ∑ u ∈ Finset.range j, (inputs.getD u default).shape.getD axis 0)
      (by omega)
    have hcoord : idx.getD axis 0 +
        (∑ u ∈ Finset.range i, (inputs.getD u default).shape.getD axis 0) =
        idx'.getD axis 0 +
        ∑ u ∈ Finset.range j, (inputs.getD u default).shape.getD axis 0 := by
      rw [← hgi, ← hgj, hbeq]
    have hidxlt : idx.getD axis 0 <
        (inputs.getD i default).shape.getD axis 0 :=
      forall₂_getD_lt hvi axis
        (by rw [hlen _ (getD_mem _ _ hi)]; exact hax)
    have hmono : (∑ u ∈ Finset.range i,
          (inputs.getD u default).shape.getD axis 0) +
        (inputs.getD i default).shape.getD axis 0 ≤
        ∑ u ∈ Finset.range j,
          (inputs.getD u default).shape.getD axis 0 := by
      have h1 := Finset.sum_le_sum_of_subset
        (f := fun u => (inputs.getD u default).shape.getD axis 0)
        (Finset.range_subset.mpr hij)
      rw [Finset.sum_range_succ] at h1
      exact h1
    omega

/-- A `(2, 3)` first input for `Concatenate` along axis 0. -/
def exCatIn1 : ArrayMeta :=
  ⟨[2, 3], [3, 1], Dtype.float32, 6, ⟨true, true, false⟩⟩

/-- A `(1, 3)` second input for `Concatenate` along axis 0. -/
def exCatIn2 : ArrayMeta :=
  ⟨[1, 3], [3, 1], Dtype.float32, 3, ⟨true, true, false⟩⟩

/-- The `(3, 3)` row-major output of concatenating `exCatIn1` and
`exCatIn2` along axis 0. -/
def exCatOut : ArrayMeta :=
  ⟨[3, 3], [3, 1], Dtype.float32, 9, ⟨true, true, false⟩⟩

/-- Witness for C8: concatenating a `(2, 3)` and a `(1, 3)` input into a
`(3, 3)` output along axis 0. -/
theorem claim_C8_witness :
    Concatenate.eval_gpu [exCatIn1, exCatIn2] exCatOut 0 =
      Effect.alloc exCatOut.nbytes :: Effect.startConcurrent ::
        iterEffects (fun i =>
          [Effect.sharedView (concatOffset [exCatIn1, exCatIn2] exCatOut 0 i)
            exCatOut.strides (Flags.mk false false false)
            (([exCatIn1, exCatIn2].getD i default)).size,
           Effect.copyGpuInplace CopyType.GeneralGeneral])
          [exCatIn1, exCatIn2].length
    ∧ Concatenate.clearFlags exCatOut.flags = Flags.mk false false false
    ∧ (∀ i j, i < j → j < [exCatIn1, exCatIn2].length → ∀ a,
        viewAddr (concatOffset [exCatIn1, exCatIn2] exCatOut 0 i)
          exCatOut.strides ([exCatIn1, exCatIn2].getD i default).shape a →
        viewAddr (concatOffset [exCatIn1, exCatIn2] exCatOut 0 j)
          exCatOut.strides ([exCatIn1, exCatIn2].getD j default).shape a →
        False) :=
  claim_C8 [exCatIn1, exCatIn2] exCatOut 0 rfl (by decide) (by decide)
    (by decide) (by decide)

end MlxMetal
